import Mathlib

set_option maxHeartbeats 1600000

/-!
Shallow embedding of the F1 repository's core logic (`f1_logic.py`, with
`f1_chat.py` containing a byte-identical copy of `get_similar_drivers`):

* the similarity ranking engine `get_similar_drivers` (feature construction,
  pandas `fillna` mean fill, sklearn `MinMaxScaler` min-max normalization,
  sklearn `cosine_similarity`, stable descending sort, top-3 selection);
* the event reconstruction pipeline `get_race_story_stats` (event-restricted
  join of results with drivers, exact full-name filtering, constructor and
  race lookups, status decoding via `STATUS_MAP`, grid/position delta).

Rationals stand for the float statistics; the real numbers enter only through
the square roots inside cosine similarity.  `Option` models Python `None` /
JSON null / pandas `NaN` on input fields, and an `Option` result models a
raised, uncaught exception of the Python function.
-/

namespace F1

/-- A competitor statistical summary as read from the knowledge store
(`driver_knowledge.json`): the fields used by `get_similar_drivers`.
`none` models a JSON null (pandas `NaN`). -/
structure DriverStat where
  surname : String
  avg_finish : Option ℚ
  finish_std : Option ℚ
  delta_vs_team : Option ℚ
  races : Option ℚ
deriving DecidableEq

instance : Inhabited DriverStat := ⟨⟨"", none, none, none, none⟩⟩

/-- `df['score_pace'] = 22 - df['avg_finish']` (f1_logic.py line 44).
An arithmetic operation on `NaN` yields `NaN`, hence `Option.map`. -/
def scorePace (pop : List DriverStat) : List (Option ℚ) :=
  pop.map fun d => d.avg_finish.map fun x => 22 - x

/-- `df['score_consistency'] = 15 - df['finish_std']` (line 45). -/
def scoreConsistency (pop : List DriverStat) : List (Option ℚ) :=
  pop.map fun d => d.finish_std.map fun x => 15 - x

/-- `df['score_skill'] = df['delta_vs_team'] * -1` (line 46). -/
def scoreSkill (pop : List DriverStat) : List (Option ℚ) :=
  pop.map fun d => d.delta_vs_team.map fun x => x * (-1)

/-- `df['score_exp'] = df['races']` (line 47). -/
def scoreExp (pop : List DriverStat) : List (Option ℚ) :=
  pop.map fun d => d.races

/-- The column mean that pandas `.mean()` computes: the arithmetic mean of the
non-null entries, or `NaN` (here `none`) when every entry is null. -/
def colMean (c : List (Option ℚ)) : Option ℚ :=
  let v := c.filterMap id
  if v.length = 0 then none else some (v.sum / (v.length : ℚ))

/-- Replace a null entry by the fill value (a non-null entry is kept; filling
with `NaN` leaves `NaN` in place). -/
def fillOpt (o m : Option ℚ) : Option ℚ :=
  match o with
  | some x => some x
  | none => m

/-- `df[features] = df[features].fillna(df[features].mean())` (line 50),
for one column: null entries are replaced by the column mean of the non-null
entries. -/
def fillna (c : List (Option ℚ)) : List (Option ℚ) :=
  c.map fun o => fillOpt o (colMean c)

/-- Turns a column into `some` list of values exactly when no `NaN` is left.
A remaining `NaN` (possible only when a whole feature column is null, since
`fillna` with the column mean fills every other case) is rejected with an
uncaught `ValueError` by sklearn's `cosine_similarity` input validation;
that abort is modelled by a `none` result downstream. -/
def seqCol : List (Option ℚ) → Option (List ℚ)
  | [] => some []
  | none :: _ => none
  | some x :: rest => (seqCol rest).map fun l => x :: l

/-- Minimum of a column (sklearn `data_min_`); junk value on `[]`, never used
there. -/
def colMin : List ℚ → ℚ
  | [] => 0
  | x :: xs => xs.foldl min x

/-- Maximum of a column (sklearn `data_max_`). -/
def colMax : List ℚ → ℚ
  | [] => 0
  | x :: xs => xs.foldl max x

/-- sklearn `MinMaxScaler().fit_transform` on one feature column with the
default range (0,1): `(x - min) / (max - min)`, where a zero range is
replaced by 1 (`_handle_zeros_in_scale`), so a constant column maps to 0. -/
def minmaxScale (c : List ℚ) : List ℚ :=
  let lo := colMin c
  let scale := if colMax c - lo = 0 then 1 else colMax c - lo
  c.map fun x => (x - lo) / scale

/-- A row of the 4-column feature matrix `df[features]`. -/
structure Vec4 where
  x1 : ℚ
  x2 : ℚ
  x3 : ℚ
  x4 : ℚ

/-- Dot product of two feature rows. -/
def dotQ (u v : Vec4) : ℚ :=
  u.x1 * v.x1 + u.x2 * v.x2 + u.x3 * v.x3 + u.x4 * v.x4

/-- sklearn `cosine_similarity` of two rows: each row is L2-normalized, a
zero norm being replaced by 1 (`normalize`), and the results are dotted:
`dot(u,v) / (max(|u|,1 if |u|=0) * (same for v))`. -/
noncomputable def cosSim (u v : Vec4) : ℝ :=
  (dotQ u v : ℝ) /
    ((if Real.sqrt (dotQ u u : ℚ) = 0 then 1 else Real.sqrt (dotQ u u : ℚ)) *
      (if Real.sqrt (dotQ v v : ℚ) = 0 then 1 else Real.sqrt (dotQ v v : ℚ)))

/-- Row `i` of the scaled feature matrix (the default is never reached for
indices produced by the pipeline, which stay below the population size). -/
def vecAt (p c s e : List ℚ) (i : Nat) : Vec4 :=
  ⟨p.getD i 0, c.getD i 0, s.getD i 0, e.getD i 0⟩

/-- `target_idx = df[df['surname'] == target_driver].index[0]` (line 55):
the first position whose surname equals the target. -/
def targetIdx (target : String) (pop : List DriverStat) : Nat :=
  pop.findIdx fun d => d.surname == target

/-- `list(enumerate(sim_scores))` (line 58) where
`sim_scores = cosine_similarity([vectors[target_idx]], vectors)[0]`
(line 56): the row index paired with the cosine similarity of the target's
scaled feature row against that row. -/
noncomputable def simPairs (n t : Nat) (p c s e : List ℚ) : List (Nat × ℝ) :=
  (List.range n).map fun i => (i, cosSim (vecAt p c s e t) (vecAt p c s e i))

/-- `sorted(..., key=lambda x: x[1], reverse=True)` (line 58).  Python's
`sorted` is a stable descending sort on the score; so is `List.mergeSort`
with the reversed comparison. -/
noncomputable def rankByScore (l : List (Nat × ℝ)) : List (Nat × ℝ) :=
  l.mergeSort fun a b => decide (b.2 ≤ a.2)

/-- The selection loop (lines 60-66): walk the ranked list, skip the target's
own index, append up to 3 matches, then break. -/
def pickTop (t : Nat) : Nat → List (Nat × ℝ) → List (Nat × ℝ)
  | _, [] => []
  | 0, _ :: _ => []
  | b + 1, p :: rest =>
    if p.1 = t then pickTop t (b + 1) rest else p :: pickTop t b rest

/-- `get_similar_drivers` (f1_logic.py lines 39-68), with the returned dicts
reduced to their (population index, similarity score) content; the index part
determines the row dict.  The `backend` flag models whether the module-level
`from sklearn... import` succeeded (`cosine_similarity is None` check, line
40).  An empty population aborts: `pd.DataFrame([])` has no `surname` column
and line 42 raises an uncaught `KeyError`.  A wholly-null feature column
survives `fillna` and `MinMaxScaler` as `NaN` and is then rejected by
`cosine_similarity` with an uncaught `ValueError`; both aborts are the `none`
result. -/
noncomputable def similarIdx (backend : Bool) (target : String)
    (pop : List DriverStat) : Option (List (Nat × ℝ)) :=
  if backend = false then some [] else
  if pop = [] then none else
  if ¬ (pop.map (·.surname)).contains target then some [] else
  match seqCol (fillna (scorePace pop)), seqCol (fillna (scoreConsistency pop)),
      seqCol (fillna (scoreSkill pop)), seqCol (fillna (scoreExp pop)) with
  | some pc, some cc, some sc, some ec =>
    let t := targetIdx target pop
    some (pickTop t 3 (rankByScore (simPairs pop.length t
      (minmaxScale pc) (minmaxScale cc) (minmaxScale sc) (minmaxScale ec))))
  | _, _, _, _ => none

/-- The public result of `get_similar_drivers`: each selected index paired
back with its population row (`df.iloc[idx].to_dict()`, line 63) and its
similarity score (line 64). -/
noncomputable def get_similar_drivers (backend : Bool) (target : String)
    (pop : List DriverStat) : Option (List (DriverStat × ℝ)) :=
  (similarIdx backend target pop).map fun l =>
    l.map fun p => (pop.getD p.1 default, p.2)

/-- Modelled from the spec: the population with its nulls already filled at
the attribute level — every missing source attribute is replaced by the
arithmetic mean of that attribute over the members of the population that
have it, BEFORE the pace/consistency/skill/experience transforms.  This is
the comparator definition for the refinement claim that `get_similar_drivers`
behaves as if the fill had happened at this stage (the code fills the
transformed columns instead). -/
def specFillPop (pop : List DriverStat) : List DriverStat :=
  pop.map fun d =>
    { d with
      avg_finish := fillOpt d.avg_finish (colMean (pop.map (·.avg_finish))),
      finish_std := fillOpt d.finish_std (colMean (pop.map (·.finish_std))),
      delta_vs_team :=
        fillOpt d.delta_vs_team (colMean (pop.map (·.delta_vs_team))),
      races := fillOpt d.races (colMean (pop.map (·.races))) }

/-- Every feature column still has a value for every row after the mean fill,
i.e. no feature column of the population is entirely null (when the
population is non-empty); exactly then does the similarity pipeline reach the
ranking instead of aborting on leftover `NaN`. -/
def colsOk (pop : List DriverStat) : Prop :=
  (seqCol (fillna (scorePace pop))).isSome = true ∧
  (seqCol (fillna (scoreConsistency pop))).isSome = true ∧
  (seqCol (fillna (scoreSkill pop))).isSome = true ∧
  (seqCol (fillna (scoreExp pop))).isSome = true

/-- A small complete population used to instantiate the ranking theorems. -/
def popABC : List DriverStat :=
  [⟨"A", some 2, some 1, some (-1), some 50⟩,
    ⟨"B", some 3, some 2, some (-1), some 40⟩,
    ⟨"C", some 15, some 6, some 3, some 10⟩]

/-- A two-member population in which B's `finish_std` is null. -/
def popNullStd : List DriverStat :=
  [⟨"A", some 2, some 4, some (-1), some 50⟩,
    ⟨"B", some 3, none, some 1, some 40⟩]

/-! ## The archive engine (`get_race_story_stats`) -/

/-- A row of `results.csv` restricted to the fields the pipeline reads. -/
structure ResultRow where
  raceId : ℤ
  driverId : ℤ
  constructorId : ℤ
  grid : ℤ
  positionOrder : ℤ
  statusId : ℤ
deriving DecidableEq

/-- A row of `drivers.csv`. -/
structure DriverRow where
  driverId : ℤ
  forename : String
  surname : String
deriving DecidableEq

/-- A row of `races.csv`. -/
structure RaceRow where
  raceId : ℤ
  year : ℤ
  name : String
  date : String
deriving DecidableEq

/-- A row of `constructors.csv`. -/
structure ConstructorRow where
  constructorId : ℤ
  name : String
deriving DecidableEq

/-- The dictionary of loaded tables (`load_data_dict`).  The caller receives
`none` when the data directory is missing; that sentinel is the `Option` on
the argument of `get_race_story_stats`. -/
structure DataDict where
  results : List ResultRow
  races : List RaceRow
  drivers : List DriverRow
  constructors : List ConstructorRow

/-- `STATUS_MAP` (f1_logic.py lines 23-28). -/
def STATUS_MAP : List (ℤ × String) :=
  [(1, "Finished"), (2, "Disqualified"), (3, "Accident"), (4, "Collision"),
    (5, "Engine"), (6, "Gearbox"), (7, "Transmission"), (8, "Clutch"),
    (9, "Hydraulics"), (10, "Electrical"), (11, "+1 Lap"), (12, "+2 Laps"),
    (13, "+3 Laps"), (20, "Spun off"), (22, "Suspension"), (31, "Retired"),
    (104, "Fatal accident")]

/-- `STATUS_MAP.get(res['statusId'], "Technical Issue")` (line 125). -/
def decodeStatus (code : ℤ) : String :=
  (STATUS_MAP.lookup code).getD "Technical Issue"

/-- `merged['full_name'] = merged['forename'] + " " + merged['surname']`
(line 111). -/
def fullName (d : DriverRow) : String :=
  d.forename ++ " " ++ d.surname

/-- Lines 109-110: restrict results to the race, inner-join with drivers on
`driverId` (each result row is paired with every driver row carrying its id,
in driver-table order, as `pd.merge` does). -/
def mergedRows (dfs : DataDict) (race_id : ℤ) : List (ResultRow × DriverRow) :=
  (dfs.results.filter fun r => r.raceId == race_id).flatMap fun r =>
    (dfs.drivers.filter fun d => d.driverId == r.driverId).map fun d => (r, d)

/-- Lines 114-119: filter the join to the exact requested full name and take
the first row (`target_row.iloc[0]`), if any. -/
def firstMatch (dfs : DataDict) (race_id : ℤ) (driver_fullname : String) :
    Option (ResultRow × DriverRow) :=
  ((mergedRows dfs race_id).filter fun rd => fullName rd.2 == driver_fullname).head?

/-- The `EventOutcomeFact` dict returned by `get_race_story_stats`
(lines 131-141). -/
structure Fact where
  year : ℤ
  gp_name : String
  date : String
  driver : String
  team : String
  grid : ℤ
  finish : ℤ
  status : String
  delta : ℤ
deriving DecidableEq

/-- `get_race_story_stats` (f1_logic.py lines 99-144).  `dfs = none` is the
missing-store sentinel of `load_data_dict` (`if not dfs: return None`,
line 104).  A missing constructor or race row makes `.iloc[0]` raise
`IndexError`, swallowed by the catch-all `except` into the same `None`
(lines 142-144); the not-found branch returns `None` at line 117. -/
def get_race_story_stats : Option DataDict → ℤ → String → Option Fact
  | none, _, _ => none
  | some dfs, race_id, driver_fullname =>
    match firstMatch dfs race_id driver_fullname with
    | none => none
    | some (res, _) =>
      match (dfs.constructors.filter fun c => c.constructorId == res.constructorId).head?,
          (dfs.races.filter fun rc => rc.raceId == race_id).head? with
      | some cons, some race =>
        let grid := res.grid
        let pos := res.positionOrder
        let calc_grid : ℤ := if grid = 0 then 20 else grid
        some { year := race.year, gp_name := race.name, date := race.date,
               driver := driver_fullname, team := cons.name, grid := grid,
               finish := pos, status := decodeStatus res.statusId,
               delta := calc_grid - pos }
      | _, _ => none

/-! ## Concrete stores used to instantiate the reconstruction theorems -/

/-- A one-result store parametrised by grid, finishing order and status. -/
def mkStore (g p st : ℤ) : DataDict :=
  { results := [⟨1, 7, 9, g, p, st⟩],
    races := [⟨1, 2020, "Test GP", "2020-03-15"⟩],
    drivers := [⟨7, "A", "B"⟩],
    constructors := [⟨9, "T"⟩] }

/-- A store with two competitors sharing the surname Schumacher in race 1. -/
def schuStore : DataDict :=
  { results := [⟨1, 1, 11, 3, 1, 1⟩, ⟨1, 2, 12, 15, 16, 5⟩],
    races := [⟨1, 2021, "Heritage GP", "2021-05-01"⟩],
    drivers := [⟨1, "Michael", "Schumacher"⟩, ⟨2, "Mick", "Schumacher"⟩],
    constructors := [⟨11, "Ferrari"⟩, ⟨12, "Haas"⟩] }

/-- The reconstruction of Michael Schumacher's row of `schuStore`. -/
def michaelFact : Fact :=
  { year := 2021, gp_name := "Heritage GP", date := "2021-05-01",
    driver := "Michael Schumacher", team := "Ferrari", grid := 3, finish := 1,
    status := "Finished", delta := 2 }

/-- The reconstruction of Mick Schumacher's row of `schuStore`. -/
def mickFact : Fact :=
  { year := 2021, gp_name := "Heritage GP", date := "2021-05-01",
    driver := "Mick Schumacher", team := "Haas", grid := 15, finish := 16,
    status := "Engine", delta := -1 }

/-- A store whose only result row references a constructor id absent from the
constructors table (and whose races table is empty). -/
def brokenStore : DataDict :=
  { results := [⟨1, 7, 99, 2, 4, 1⟩], races := [],
    drivers := [⟨7, "A", "B"⟩], constructors := [] }

/-- A store whose races table is empty but whose constructor lookup works. -/
def noRaceStore : DataDict :=
  { results := [⟨1, 7, 9, 2, 4, 1⟩], races := [],
    drivers := [⟨7, "A", "B"⟩], constructors := [⟨9, "T"⟩] }

/-! ## Reconstruction lemmas -/

/-- Unfolding a successful reconstruction down to its matched row. -/
theorem story_some_elim {dfs : DataDict} {rid : ℤ} {nm : String} {fact : Fact}
    {r : ResultRow} {d : DriverRow}
    (h : get_race_story_stats (some dfs) rid nm = some fact)
    (hfm : firstMatch dfs rid nm = some (r, d)) :
    fact.grid = r.grid ∧ fact.finish = r.positionOrder ∧
      fact.delta = (if r.grid = 0 then 20 else r.grid) - r.positionOrder ∧
      fact.status = decodeStatus r.statusId ∧ fact.driver = nm := by
  simp only [get_race_story_stats, hfm] at h
  rcases hc : (dfs.constructors.filter fun c => c.constructorId == r.constructorId).head? with
    _ | cons
  · rw [hc] at h; simp at h
  rcases hr : (dfs.races.filter fun rc => rc.raceId == rid).head? with _ | race
  · rw [hc, hr] at h; simp at h
  rw [hc, hr] at h
  simp only [Option.some.injEq] at h
  subst h
  exact ⟨rfl, rfl, rfl, rfl, rfl⟩

theorem firstMatch_none_story {dfs : DataDict} {rid : ℤ} {nm : String}
    (hfm : firstMatch dfs rid nm = none) :
    get_race_story_stats (some dfs) rid nm = none := by
  simp only [get_race_story_stats, hfm]

/-! ## Claim theorems about the reconstruction pipeline -/

/-- C2: whenever `get_race_story_stats` returns a fact for a matched result
row, the delta equals `effective_grid - positionOrder` where the effective
grid is 20 when the row's grid is 0 and the raw grid otherwise, while the
reported `grid` field stays the raw value; in particular a one-row store with
`grid = 0` and `positionOrder = p` yields `delta = 20 - p` and `grid = 0`. -/
theorem story_delta_effective_grid :
    (∀ (dfs : DataDict) (rid : ℤ) (nm : String) (fact : Fact) (r : ResultRow)
        (d : DriverRow),
        get_race_story_stats (some dfs) rid nm = some fact →
        firstMatch dfs rid nm = some (r, d) →
        fact.grid = r.grid ∧ fact.finish = r.positionOrder ∧
          fact.delta = (if r.grid = 0 then 20 else r.grid) - r.positionOrder) ∧
    (∀ p : ℤ, get_race_story_stats (some (mkStore 0 p 1)) 1 "A B" =
        some { year := 2020, gp_name := "Test GP", date := "2020-03-15",
               driver := "A B", team := "T", grid := 0, finish := p,
               status := "Finished", delta := 20 - p }) := by
  constructor
  · intro dfs rid nm fact r d h hfm
    obtain ⟨h1, h2, h3, -, -⟩ := story_some_elim h hfm
    exact ⟨h1, h2, h3⟩
  · intro p
    rfl

/-- Witness for C2 at the concrete store with grid 0 and positionOrder 5:
the returned fact reports the raw grid 0 and delta 15. -/
theorem story_delta_effective_grid_witness :
    ({ year := 2020, gp_name := "Test GP", date := "2020-03-15",
       driver := "A B", team := "T", grid := 0, finish := 5,
       status := "Finished", delta := 20 - 5 } : Fact).grid =
        (⟨1, 7, 9, 0, 5, 1⟩ : ResultRow).grid ∧
    ({ year := 2020, gp_name := "Test GP", date := "2020-03-15",
       driver := "A B", team := "T", grid := 0, finish := 5,
       status := "Finished", delta := 20 - 5 } : Fact).finish =
        (⟨1, 7, 9, 0, 5, 1⟩ : ResultRow).positionOrder ∧
    ({ year := 2020, gp_name := "Test GP", date := "2020-03-15",
       driver := "A B", team := "T", grid := 0, finish := 5,
       status := "Finished", delta := 20 - 5 } : Fact).delta =
        (if (⟨1, 7, 9, 0, 5, 1⟩ : ResultRow).grid = 0 then 20
          else (⟨1, 7, 9, 0, 5, 1⟩ : ResultRow).grid) -
          (⟨1, 7, 9, 0, 5, 1⟩ : ResultRow).positionOrder :=
  story_delta_effective_grid.1 (mkStore 0 5 1) 1 "A B" _ ⟨1, 7, 9, 0, 5, 1⟩
    ⟨7, "A", "B"⟩ (story_delta_effective_grid.2 5) rfl

/-- C6: `get_race_story_stats` decodes the matched row's status code through
`STATUS_MAP`; a code present in the table decodes to its table label, and a
code absent from the table (such as 999) decodes to "Technical Issue". -/
theorem story_status_fallback :
    (∀ (dfs : DataDict) (rid : ℤ) (nm : String) (fact : Fact) (r : ResultRow)
        (d : DriverRow),
        get_race_story_stats (some dfs) rid nm = some fact →
        firstMatch dfs rid nm = some (r, d) →
        fact.status = decodeStatus r.statusId) ∧
    (∀ (code : ℤ) (label : String),
        (code, label) ∈ STATUS_MAP → decodeStatus code = label) ∧
    (∀ code : ℤ, code ∉ STATUS_MAP.map Prod.fst →
        decodeStatus code = "Technical Issue") := by
  refine ⟨?_, ?_, ?_⟩
  · intro dfs rid nm fact r d h hfm
    exact (story_some_elim h hfm).2.2.2.1
  · intro code label h
    fin_cases h <;> rfl
  · intro code h
    have hnone : STATUS_MAP.lookup code = none := by
      rw [List.lookup_eq_none_iff]
      intro p hp
      simp only [bne_iff_ne, ne_eq]
      intro hc
      exact h (hc ▸ List.mem_map_of_mem Prod.fst hp)
    simp [decodeStatus, hnone]

/-- Witness for C6: the decoded status of Michael Schumacher's row, a table
code (5 ↦ "Engine"), and the out-of-table code 999. -/
theorem story_status_fallback_witness :
    michaelFact.status = decodeStatus 1 ∧ decodeStatus 5 = "Engine" ∧
      decodeStatus 999 = "Technical Issue" :=
  ⟨story_status_fallback.1 schuStore 1 "Michael Schumacher" michaelFact
      ⟨1, 1, 11, 3, 1, 1⟩ ⟨1, "Michael", "Schumacher"⟩ rfl rfl,
    story_status_fallback.2.1 5 "Engine" (by decide),
    story_status_fallback.2.2 999 (by decide)⟩

/-- C7: the row used by `get_race_story_stats` is a result row of the given
event joined to a driver row with the exact requested full name, an absent
match yields the not-found sentinel, and the two Schumachers of `schuStore`
reconstruct to their own distinct facts. -/
theorem story_identity_disambiguation :
    (∀ (dfs : DataDict) (rid : ℤ) (nm : String),
        firstMatch dfs rid nm = none →
        get_race_story_stats (some dfs) rid nm = none) ∧
    (∀ (dfs : DataDict) (rid : ℤ) (nm : String) (r : ResultRow) (d : DriverRow),
        firstMatch dfs rid nm = some (r, d) →
        r ∈ dfs.results ∧ r.raceId = rid ∧ d ∈ dfs.drivers ∧
          d.driverId = r.driverId ∧ fullName d = nm) ∧
    (get_race_story_stats (some schuStore) 1 "Michael Schumacher" =
        some michaelFact ∧
      get_race_story_stats (some schuStore) 1 "Mick Schumacher" = some mickFact ∧
      michaelFact ≠ mickFact) := by
  refine ⟨fun dfs rid nm h => firstMatch_none_story h, ?_, rfl, rfl, by decide⟩
  intro dfs rid nm r d h
  unfold firstMatch at h
  rw [List.head?_eq_some_iff] at h
  obtain ⟨ys, hys⟩ := h
  have hmem : (r, d) ∈ (mergedRows dfs rid).filter fun rd => fullName rd.2 == nm := by
    rw [hys]; exact List.mem_cons_self _ _
  rw [List.mem_filter] at hmem
  obtain ⟨hmem, hname⟩ := hmem
  unfold mergedRows at hmem
  rw [List.mem_flatMap] at hmem
  obtain ⟨rr, hrr, hmap⟩ := hmem
  rw [List.mem_map] at hmap
  obtain ⟨dd, hdd, heq⟩ := hmap
  cases heq
  rw [List.mem_filter] at hrr hdd
  refine ⟨hrr.1, by simpa using hrr.2, hdd.1, by simpa using hdd.2, by simpa using hname⟩

/-- Witness for C7: a not-found call on `schuStore` (race 2 has no rows), and
the selection facts for Michael Schumacher's matched row in race 1. -/
theorem story_identity_disambiguation_witness :
    get_race_story_stats (some schuStore) 2 "Michael Schumacher" = none ∧
    ((⟨1, 1, 11, 3, 1, 1⟩ : ResultRow) ∈ schuStore.results ∧
      (⟨1, 1, 11, 3, 1, 1⟩ : ResultRow).raceId = 1 ∧
      (⟨1, "Michael", "Schumacher"⟩ : DriverRow) ∈ schuStore.drivers ∧
      (⟨1, "Michael", "Schumacher"⟩ : DriverRow).driverId =
        (⟨1, 1, 11, 3, 1, 1⟩ : ResultRow).driverId ∧
      fullName ⟨1, "Michael", "Schumacher"⟩ = "Michael Schumacher") :=
  ⟨story_identity_disambiguation.1 schuStore 2 "Michael Schumacher" rfl,
    story_identity_disambiguation.2.1 schuStore 1 "Michael Schumacher"
      ⟨1, 1, 11, 3, 1, 1⟩ ⟨1, "Michael", "Schumacher"⟩ rfl⟩

/-- C10: once the store check passes, every internal failure of
`get_race_story_stats` — no matching row, a matched row whose constructor id
misses the constructors table, or a race id missing from the races table —
produces the same `None` sentinel; nothing escapes the catch-all handler. -/
theorem story_catch_all_none :
    (∀ (dfs : DataDict) (rid : ℤ) (nm : String) (r : ResultRow) (d : DriverRow),
        firstMatch dfs rid nm = some (r, d) →
        (dfs.constructors.filter fun c => c.constructorId == r.constructorId) = [] →
        get_race_story_stats (some dfs) rid nm = none) ∧
    (∀ (dfs : DataDict) (rid : ℤ) (nm : String) (r : ResultRow) (d : DriverRow),
        firstMatch dfs rid nm = some (r, d) →
        (dfs.races.filter fun rc => rc.raceId == rid) = [] →
        get_race_story_stats (some dfs) rid nm = none) ∧
    (∀ (dfs : DataDict) (rid : ℤ) (nm : String),
        firstMatch dfs rid nm = none →
        get_race_story_stats (some dfs) rid nm = none) := by
  refine ⟨?_, ?_, fun dfs rid nm h => firstMatch_none_story h⟩
  · intro dfs rid nm r d hfm hc
    simp [get_race_story_stats, hfm, hc]
  · intro dfs rid nm r d hfm hr
    cases hc : (dfs.constructors.filter fun c => c.constructorId == r.constructorId).head? with
    | none => simp [get_race_story_stats, hfm, hc]
    | some c => simp [get_race_story_stats, hfm, hc, hr]

/-- Witness for C10: the missing-constructor store, the missing-race store
and a no-match lookup all collapse to the same `none`. -/
theorem story_catch_all_none_witness :
    get_race_story_stats (some brokenStore) 1 "A B" = none ∧
    get_race_story_stats (some noRaceStore) 1 "A B" = none ∧
    get_race_story_stats (some schuStore) 3 "Michael Schumacher" = none :=
  ⟨story_catch_all_none.1 brokenStore 1 "A B" ⟨1, 7, 99, 2, 4, 1⟩ ⟨7, "A", "B"⟩
      rfl rfl,
    story_catch_all_none.2.1 noRaceStore 1 "A B" ⟨1, 7, 9, 2, 4, 1⟩ ⟨7, "A", "B"⟩
      rfl rfl,
    story_catch_all_none.2.2 schuStore 3 "Michael Schumacher" rfl⟩

/-- C8 counterexample: at concrete inputs, the missing-store outcome of
`get_race_story_stats` equals its not-found outcome (`None` both times) and
the missing-backend outcome of `get_similar_drivers` equals its target-absent
outcome (the empty list both times), so neither hard failure is
distinguishable from the no-match result. -/
theorem upstream_failure_not_distinguishable :
    get_race_story_stats none 1 "Michael Schumacher" =
        get_race_story_stats (some schuStore) 1 "Nico Rosberg" ∧
    get_race_story_stats none 1 "Michael Schumacher" = none ∧
    get_similar_drivers false "Alonso"
        [⟨"Alonso", some 5, some 2, some (-1), some 300⟩] =
      get_similar_drivers true "Vettel"
        [⟨"Alonso", some 5, some 2, some (-1), some 300⟩] ∧
    get_similar_drivers false "Alonso"
        [⟨"Alonso", some 5, some 2, some (-1), some 300⟩] = some [] :=
  ⟨rfl, rfl, rfl, rfl⟩

/-- C8 amended: a missing relational store makes `get_race_story_stats`
return the same `None` sentinel as a not-found lookup, and a missing
similarity backend makes `get_similar_drivers` return the same empty list as
an absent target: upstream unavailability degrades to the no-match sentinel
instead of propagating a distinguishable hard failure. -/
theorem upstream_failure_sentinel :
    (∀ (rid : ℤ) (nm : String), get_race_story_stats none rid nm = none) ∧
    (∀ (target : String) (pop : List DriverStat),
        get_similar_drivers false target pop = some []) :=
  ⟨fun _ _ => rfl, fun _ _ => rfl⟩

/-! ## Lemmas about the selection loop and the column statistics -/

theorem pickTop_eq_take_filter (t : Nat) :
    ∀ (b : Nat) (l : List (Nat × ℝ)),
      pickTop t b l = (l.filter fun p => decide (p.1 ≠ t)).take b := by
  intro b l
  induction l generalizing b with
  | nil => cases b <;> rfl
  | cons p rest ih =>
    cases b with
    | zero => simp [pickTop]
    | succ n =>
      by_cases hp : p.1 = t
      · simp [pickTop, hp, ih]
      · simp [pickTop, hp, ih]

theorem pickTop_sublist (t b : Nat) (l : List (Nat × ℝ)) :
    List.Sublist (pickTop t b l) l := by
  rw [pickTop_eq_take_filter]
  exact (List.take_sublist _ _).trans (List.filter_sublist _)

theorem pickTop_fst_ne (t b : Nat) (l : List (Nat × ℝ)) :
    ∀ p ∈ pickTop t b l, p.1 ≠ t := by
  intro p hp
  rw [pickTop_eq_take_filter] at hp
  have hm : p ∈ List.filter (fun q => decide (q.1 ≠ t)) l :=
    (List.take_sublist _ _).subset hp
  have hd := List.of_mem_filter hm
  exact of_decide_eq_true hd

theorem foldl_min_le {l : List ℚ} {a : ℚ} : ∀ z ∈ a :: l, l.foldl min a ≤ z := by
  induction l generalizing a with
  | nil => intro z hz; rw [List.mem_singleton] at hz; subst hz; exact le_refl _
  | cons b bs ih =>
    intro z hz
    rcases List.mem_cons.mp hz with rfl | hz'
    · calc List.foldl min (min z b) bs ≤ min z b :=
            ih (min z b) (List.mem_cons_self _ _)
        _ ≤ z := min_le_left _ _
    · rcases List.mem_cons.mp hz' with rfl | hz''
      · calc List.foldl min (min a z) bs ≤ min a z :=
              ih (min a z) (List.mem_cons_self _ _)
          _ ≤ z := min_le_right _ _
      · exact @ih (min a b) z (List.mem_cons_of_mem _ hz'')

theorem le_foldl_max {l : List ℚ} {a : ℚ} : ∀ z ∈ a :: l, z ≤ l.foldl max a := by
  induction l generalizing a with
  | nil => intro z hz; rw [List.mem_singleton] at hz; subst hz; exact le_refl _
  | cons b bs ih =>
    intro z hz
    rcases List.mem_cons.mp hz with rfl | hz'
    · calc z ≤ max z b := le_max_left _ _
        _ ≤ List.foldl max (max z b) bs := ih (max z b) (List.mem_cons_self _ _)
    · rcases List.mem_cons.mp hz' with rfl | hz''
      · calc z ≤ max a z := le_max_right _ _
          _ ≤ List.foldl max (max a z) bs := ih (max a z) (List.mem_cons_self _ _)
      · exact @ih (max a b) z (List.mem_cons_of_mem _ hz'')

theorem colMin_le {c : List ℚ} {y : ℚ} (hy : y ∈ c) : colMin c ≤ y := by
  cases c with
  | nil => cases hy
  | cons x xs => exact foldl_min_le y hy

theorem le_colMax {c : List ℚ} {y : ℚ} (hy : y ∈ c) : y ≤ colMax c := by
  cases c with
  | nil => cases hy
  | cons x xs => exact le_foldl_max y hy

theorem minmaxScale_nonneg {c : List ℚ} {x : ℚ} (hx : x ∈ minmaxScale c) :
    0 ≤ x := by
  simp only [minmaxScale, List.mem_map] at hx
  obtain ⟨y, hy, rfl⟩ := hx
  have hlo : colMin c ≤ y := colMin_le hy
  have hhi : y ≤ colMax c := le_colMax hy
  by_cases h : colMax c - colMin c = 0
  · rw [if_pos h]
    have : 0 ≤ y - colMin c := by linarith
    simpa using this
  · rw [if_neg h]
    have hpos : 0 < colMax c - colMin c := lt_of_le_of_ne (by linarith) (Ne.symm h)
    exact div_nonneg (by linarith) (le_of_lt hpos)

theorem getD_zero_nonneg {l : List ℚ} (h : ∀ x ∈ l, (0:ℚ) ≤ x) (i : Nat) :
    0 ≤ l.getD i 0 := by
  rw [List.getD_eq_getElem?_getD]
  rcases hlt : l[i]? with _ | x
  · simp
  · simpa using h x (List.getElem?_mem hlt)

/-! ## Lemmas about the stable descending sort -/

theorem rankByScore_perm (l : List (Nat × ℝ)) :
    List.Perm (rankByScore l) l :=
  List.mergeSort_perm l _

theorem rankLe_trans (a b c : Nat × ℝ)
    (hab : decide (b.2 ≤ a.2) = true) (hbc : decide (c.2 ≤ b.2) = true) :
    decide (c.2 ≤ a.2) = true := by
  simp only [decide_eq_true_eq] at hab hbc ⊢
  exact le_trans hbc hab

theorem rankLe_total (a b : Nat × ℝ) :
    (decide (b.2 ≤ a.2) || decide (a.2 ≤ b.2)) = true := by
  rcases le_total b.2 a.2 with h | h
  · simp [h]
  · simp [h]

theorem rankByScore_sorted (l : List (Nat × ℝ)) :
    (rankByScore l).Pairwise fun a b => b.2 ≤ a.2 := by
  have h := List.sorted_mergeSort rankLe_trans rankLe_total l
  exact h.imp fun hab => of_decide_eq_true hab

theorem pair_sublist_of_lt_fst {l : List (Nat × ℝ)}
    (hl : l.Pairwise fun u v => u.1 < v.1) {a b : Nat × ℝ}
    (ha : a ∈ l) (hb : b ∈ l) (hba : b.1 < a.1) :
    List.Sublist [b, a] l := by
  induction l with
  | nil => cases ha
  | cons x xs ih =>
    rw [List.pairwise_cons] at hl
    rcases List.mem_cons.mp ha with rfl | ha'
    · rcases List.mem_cons.mp hb with rfl | hb'
      · exact absurd hba (lt_irrefl _)
      · exact absurd (hl.1 b hb') (by omega)
    · rcases List.mem_cons.mp hb with rfl | hb'
      · exact List.Sublist.cons₂ _ (List.singleton_sublist.mpr ha')
      · exact List.Sublist.cons _ (ih hl.2 ha' hb')

theorem pair_sublist_index {α : Type} {a b : α} :
    ∀ {L : List α}, List.Sublist [a, b] L →
      ∃ (i j : Nat) (hi : i < L.length) (hj : j < L.length),
        i < j ∧ L.get ⟨i, hi⟩ = a ∧ L.get ⟨j, hj⟩ = b := by
  intro L h
  induction L with
  | nil => rw [List.sublist_nil] at h; simp at h
  | cons x xs ih =>
    cases h with
    | cons y h' =>
      obtain ⟨i, j, hi, hj, hij, ha, hb⟩ := ih h'
      exact ⟨i + 1, j + 1, by simpa using hi, by simpa using hj, by omega,
        by simpa using ha, by simpa using hb⟩
    | cons₂ y h' =>
      have hbm : b ∈ xs := List.singleton_sublist.mp h'
      obtain ⟨j, hj, hbj⟩ := List.mem_iff_getElem.mp hbm
      exact ⟨0, j + 1, by simp, by simpa using hj, by omega, rfl,
        by simpa using hbj⟩

/-- The output of the descending stable sort on an index-tagged list whose
indices increase: scores are non-increasing, and equal scores keep the
original index order (Python's `sorted` stability). -/
theorem rankByScore_pairwise {l : List (Nat × ℝ)}
    (hl : l.Pairwise fun u v => u.1 < v.1) :
    (rankByScore l).Pairwise fun a b => b.2 < a.2 ∨ (a.2 = b.2 ∧ a.1 < b.1) := by
  have hperm : List.Perm (rankByScore l) l := rankByScore_perm l
  have hsorted := rankByScore_sorted l
  have hne : (rankByScore l).Pairwise fun a b => a.1 ≠ b.1 :=
    (List.Perm.pairwise_iff (fun h => Ne.symm h) hperm).mpr
      (hl.imp fun h => Nat.ne_of_lt h)
  have hnodup : (rankByScore l).Nodup :=
    hne.imp fun h heq => h (congrArg Prod.fst heq)
  rw [List.pairwise_iff_getElem] at hsorted hne ⊢
  intro i j hi hj hij
  have hle := hsorted i j hi hj hij
  have hneij := hne i j hi hj hij
  rcases lt_or_eq_of_le hle with hlt | heq2
  · exact Or.inl hlt
  · refine Or.inr ⟨heq2.symm, ?_⟩
    by_contra hnot
    push_neg at hnot
    have hba : ((rankByScore l).get ⟨j, hj⟩).1 < ((rankByScore l).get ⟨i, hi⟩).1 := by
      rw [List.get_eq_getElem, List.get_eq_getElem]
      exact lt_of_le_of_ne hnot (Ne.symm hneij)
    have hmi : (rankByScore l).get ⟨i, hi⟩ ∈ l := by
      rw [List.get_eq_getElem]
      exact hperm.subset (List.getElem_mem hi)
    have hmj : (rankByScore l).get ⟨j, hj⟩ ∈ l := by
      rw [List.get_eq_getElem]
      exact hperm.subset (List.getElem_mem hj)
    have hsub : List.Sublist
        [(rankByScore l).get ⟨j, hj⟩, (rankByScore l).get ⟨i, hi⟩] l :=
      pair_sublist_of_lt_fst hl hmi hmj hba
    have hle2 : (decide (((rankByScore l).get ⟨i, hi⟩).2 ≤
        ((rankByScore l).get ⟨j, hj⟩).2)) = true := by
      rw [List.get_eq_getElem, List.get_eq_getElem]
      exact decide_eq_true (le_of_eq heq2.symm)
    have hsub2 : List.Sublist
        [(rankByScore l).get ⟨j, hj⟩, (rankByScore l).get ⟨i, hi⟩]
        (rankByScore l) :=
      List.pair_sublist_mergeSort rankLe_trans rankLe_total hle2 hsub
    obtain ⟨p, q, hp, hq, hpq, hpa, hqb⟩ := pair_sublist_index hsub2
    have hpj : p = j := by
      have := hpa
      rw [List.get_eq_getElem] at this
      exact hnodup.getElem_inj_iff.mp this
    have hqi : q = i := by
      have := hqb
      rw [List.get_eq_getElem] at this
      exact hnodup.getElem_inj_iff.mp this
    omega

theorem simPairs_pairwise_fst (n t : Nat) (p c s e : List ℚ) :
    (simPairs n t p c s e).Pairwise fun a b => a.1 < b.1 := by
  unfold simPairs
  rw [List.pairwise_map]
  exact List.pairwise_lt_range n

theorem vecAt_scaled_nonneg (p c s e : List ℚ) (i : Nat) :
    0 ≤ (vecAt (minmaxScale p) (minmaxScale c) (minmaxScale s) (minmaxScale e) i).x1 ∧
    0 ≤ (vecAt (minmaxScale p) (minmaxScale c) (minmaxScale s) (minmaxScale e) i).x2 ∧
    0 ≤ (vecAt (minmaxScale p) (minmaxScale c) (minmaxScale s) (minmaxScale e) i).x3 ∧
    0 ≤ (vecAt (minmaxScale p) (minmaxScale c) (minmaxScale s) (minmaxScale e) i).x4 :=
  ⟨getD_zero_nonneg (fun _ hx => minmaxScale_nonneg hx) i,
    getD_zero_nonneg (fun _ hx => minmaxScale_nonneg hx) i,
    getD_zero_nonneg (fun _ hx => minmaxScale_nonneg hx) i,
    getD_zero_nonneg (fun _ hx => minmaxScale_nonneg hx) i⟩

/-! ## Bounds on the cosine similarity of non-negative rows -/

theorem cosSim_nonneg_le_one {u v : Vec4}
    (hu1 : 0 ≤ u.x1) (hu2 : 0 ≤ u.x2) (hu3 : 0 ≤ u.x3) (hu4 : 0 ≤ u.x4)
    (hv1 : 0 ≤ v.x1) (hv2 : 0 ≤ v.x2) (hv3 : 0 ≤ v.x3) (hv4 : 0 ≤ v.x4) :
    0 ≤ cosSim u v ∧ cosSim u v ≤ 1 := by
  obtain ⟨a1, a2, a3, a4⟩ := u
  obtain ⟨b1, b2, b3, b4⟩ := v
  simp only at hu1 hu2 hu3 hu4 hv1 hv2 hv3 hv4
  unfold cosSim dotQ
  dsimp only
  set qA : ℚ := a1 * a1 + a2 * a2 + a3 * a3 + a4 * a4 with hqA
  set qB : ℚ := b1 * b1 + b2 * b2 + b3 * b3 + b4 * b4 with hqB
  set qD : ℚ := a1 * b1 + a2 * b2 + a3 * b3 + a4 * b4 with hqD
  have hqA0 : (0:ℚ) ≤ qA := by
    rw [hqA]
    nlinarith [mul_self_nonneg a1, mul_self_nonneg a2, mul_self_nonneg a3,
      mul_self_nonneg a4]
  have hqB0 : (0:ℚ) ≤ qB := by
    rw [hqB]
    nlinarith [mul_self_nonneg b1, mul_self_nonneg b2, mul_self_nonneg b3,
      mul_self_nonneg b4]
  have hqD0 : (0:ℚ) ≤ qD := by
    rw [hqD]
    have := mul_nonneg hu1 hv1
    have := mul_nonneg hu2 hv2
    have := mul_nonneg hu3 hv3
    have := mul_nonneg hu4 hv4
    linarith
  have hA0 : (0:ℝ) ≤ (qA : ℝ) := by exact_mod_cast hqA0
  have hB0 : (0:ℝ) ≤ (qB : ℝ) := by exact_mod_cast hqB0
  have hD0 : (0:ℝ) ≤ (qD : ℝ) := by exact_mod_cast hqD0
  by_cases hA : Real.sqrt (qA : ℝ) = 0
  · have hAz : (qA : ℝ) ≤ 0 := Real.sqrt_eq_zero'.mp hA
    have hqAz : qA = 0 := by exact_mod_cast le_antisymm hAz hA0
    rw [hqA] at hqAz
    have h1 : a1 * a1 = 0 := by
      nlinarith [mul_self_nonneg a2, mul_self_nonneg a3, mul_self_nonneg a4]
    have h2 : a2 * a2 = 0 := by
      nlinarith [mul_self_nonneg a1, mul_self_nonneg a3, mul_self_nonneg a4]
    have h3 : a3 * a3 = 0 := by
      nlinarith [mul_self_nonneg a1, mul_self_nonneg a2, mul_self_nonneg a4]
    have h4 : a4 * a4 = 0 := by
      nlinarith [mul_self_nonneg a1, mul_self_nonneg a2, mul_self_nonneg a3]
    have hqDz : qD = 0 := by
      rw [hqD, mul_self_eq_zero.mp h1, mul_self_eq_zero.mp h2,
        mul_self_eq_zero.mp h3, mul_self_eq_zero.mp h4]
      ring
    rw [hqDz]
    constructor <;> simp
  by_cases hB : Real.sqrt (qB : ℝ) = 0
  · have hBz : (qB : ℝ) ≤ 0 := Real.sqrt_eq_zero'.mp hB
    have hqBz : qB = 0 := by exact_mod_cast le_antisymm hBz hB0
    rw [hqB] at hqBz
    have h1 : b1 * b1 = 0 := by
      nlinarith [mul_self_nonneg b2, mul_self_nonneg b3, mul_self_nonneg b4]
    have h2 : b2 * b2 = 0 := by
      nlinarith [mul_self_nonneg b1, mul_self_nonneg b3, mul_self_nonneg b4]
    have h3 : b3 * b3 = 0 := by
      nlinarith [mul_self_nonneg b1, mul_self_nonneg b2, mul_self_nonneg b4]
    have h4 : b4 * b4 = 0 := by
      nlinarith [mul_self_nonneg b1, mul_self_nonneg b2, mul_self_nonneg b3]
    have hqDz : qD = 0 := by
      rw [hqD, mul_self_eq_zero.mp h1, mul_self_eq_zero.mp h2,
        mul_self_eq_zero.mp h3, mul_self_eq_zero.mp h4]
      ring
    rw [hqDz]
    constructor <;> simp
  rw [if_neg hA, if_neg hB]
  have hsA : 0 < Real.sqrt (qA : ℝ) :=
    lt_of_le_of_ne (Real.sqrt_nonneg _) (Ne.symm hA)
  have hsB : 0 < Real.sqrt (qB : ℝ) :=
    lt_of_le_of_ne (Real.sqrt_nonneg _) (Ne.symm hB)
  have hden : 0 < Real.sqrt (qA : ℝ) * Real.sqrt (qB : ℝ) := mul_pos hsA hsB
  constructor
  · exact div_nonneg hD0 (le_of_lt hden)
  · rw [div_le_one hden]
    have hCS : qD * qD ≤ qA * qB := by
      rw [hqA, hqB, hqD]
      nlinarith [sq_nonneg (a1 * b2 - a2 * b1), sq_nonneg (a1 * b3 - a3 * b1),
        sq_nonneg (a1 * b4 - a4 * b1), sq_nonneg (a2 * b3 - a3 * b2),
        sq_nonneg (a2 * b4 - a4 * b2), sq_nonneg (a3 * b4 - a4 * b3)]
    have hCSR : ((qD : ℝ)) ^ 2 ≤ (qA : ℝ) * (qB : ℝ) := by
      rw [sq]
      exact_mod_cast hCS
    calc (qD : ℝ) ≤ Real.sqrt ((qA : ℝ) * (qB : ℝ)) :=
          (Real.le_sqrt hD0 (mul_nonneg hA0 hB0)).mpr hCSR
      _ = Real.sqrt (qA : ℝ) * Real.sqrt (qB : ℝ) := Real.sqrt_mul hA0 _

/-! ## Shape of the similarity pipeline result -/

/-- Every run of `similarIdx` with the backend available either returns the
empty list (absent target), aborts (`none`), or returns the ranked selection
over the scaled feature columns. -/
theorem similarIdx_shape (target : String) (pop : List DriverStat) :
    similarIdx true target pop = some [] ∨
    similarIdx true target pop = none ∨
    ∃ pc cc sc ec,
      seqCol (fillna (scorePace pop)) = some pc ∧
      seqCol (fillna (scoreConsistency pop)) = some cc ∧
      seqCol (fillna (scoreSkill pop)) = some sc ∧
      seqCol (fillna (scoreExp pop)) = some ec ∧
      similarIdx true target pop =
        some (pickTop (targetIdx target pop) 3 (rankByScore
          (simPairs pop.length (targetIdx target pop) (minmaxScale pc)
            (minmaxScale cc) (minmaxScale sc) (minmaxScale ec)))) := by
  unfold similarIdx
  rw [if_neg (by simp : ¬ (true = false))]
  by_cases h1 : pop = []
  · right; left; rw [if_pos h1]
  rw [if_neg h1]
  by_cases h2 : ¬ ((pop.map fun d => d.surname).contains target = true)
  · left; rw [if_pos h2]
  rw [if_neg h2]
  rcases hpc : seqCol (fillna (scorePace pop)) with _ | pc
  · right; left
    rcases hcc : seqCol (fillna (scoreConsistency pop)) with _ | cc <;>
      rcases hsc : seqCol (fillna (scoreSkill pop)) with _ | sc <;>
      rcases hec : seqCol (fillna (scoreExp pop)) with _ | ec <;>
      simp only [hpc, hcc, hsc, hec]
  rcases hcc : seqCol (fillna (scoreConsistency pop)) with _ | cc
  · right; left
    rcases hsc : seqCol (fillna (scoreSkill pop)) with _ | sc <;>
      rcases hec : seqCol (fillna (scoreExp pop)) with _ | ec <;>
      simp only [hpc, hcc, hsc, hec]
  rcases hsc : seqCol (fillna (scoreSkill pop)) with _ | sc
  · right; left
    rcases hec : seqCol (fillna (scoreExp pop)) with _ | ec <;>
      simp only [hpc, hcc, hsc, hec]
  rcases hec : seqCol (fillna (scoreExp pop)) with _ | ec
  · right; left
    simp only [hpc, hcc, hsc, hec]
  · right; right
    exact ⟨pc, cc, sc, ec, rfl, rfl, rfl, rfl, rfl⟩

/-- The pipeline form of `similarIdx` when the backend is present, the
population is non-empty, the target occurs, and every filled column is free
of leftover `NaN`. -/
theorem similarIdx_of_ok {target : String} {pop : List DriverStat}
    (hne : ¬ pop = [])
    (hcon : (pop.map fun d => d.surname).contains target = true)
    {pc cc sc ec : List ℚ}
    (hpc : seqCol (fillna (scorePace pop)) = some pc)
    (hcc : seqCol (fillna (scoreConsistency pop)) = some cc)
    (hsc : seqCol (fillna (scoreSkill pop)) = some sc)
    (hec : seqCol (fillna (scoreExp pop)) = some ec) :
    similarIdx true target pop =
      some (pickTop (targetIdx target pop) 3 (rankByScore
        (simPairs pop.length (targetIdx target pop) (minmaxScale pc)
          (minmaxScale cc) (minmaxScale sc) (minmaxScale ec)))) := by
  unfold similarIdx
  rw [if_neg (by simp : ¬ (true = false)), if_neg hne,
    if_neg (not_not_intro hcon)]
  simp only [hpc, hcc, hsc, hec]

/-- `similarIdx` returns the empty selection when the target surname is
absent from a non-empty population. -/
theorem similarIdx_absent {target : String} {pop : List DriverStat}
    (hne : ¬ pop = []) (hmem : ¬ target ∈ pop.map fun d => d.surname) :
    similarIdx true target pop = some [] := by
  unfold similarIdx
  have hcon : ¬ ((pop.map fun d => d.surname).contains target = true) := by
    intro hc
    exact hmem (List.elem_iff.mp hc)
  rw [if_neg (by simp : ¬ (true = false)), if_neg hne, if_pos hcon]

theorem targetIdx_lt_length {target : String} {pop : List DriverStat}
    (hmem : target ∈ pop.map fun d => d.surname) :
    targetIdx target pop < pop.length := by
  obtain ⟨d, hd, hsur⟩ := List.mem_map.mp hmem
  exact List.findIdx_lt_length_of_exists ⟨d, hd, by simp [hsur]⟩

theorem length_filter_ne_range : ∀ {n t : Nat}, t < n →
    ((List.range n).filter fun i => decide (i ≠ t)).length = n - 1 := by
  intro n
  induction n with
  | zero => intro t h; omega
  | succ m ih =>
    intro t h
    rw [List.range_succ, List.filter_append, List.length_append]
    by_cases hm : t = m
    · subst hm
      have h1 : (List.range t).filter (fun i => decide (i ≠ t)) = List.range t := by
        rw [List.filter_eq_self]
        intro a ha
        simp only [decide_eq_true_eq]
        have := List.mem_range.mp ha
        omega
      have h2 : List.filter (fun i => decide (i ≠ t)) [t] = [] := by
        simp [List.filter_cons]
      rw [h1, h2]
      simp
    · have ht : t < m := by omega
      have h2 : List.filter (fun i => decide (i ≠ t)) [m] = [m] := by
        have hmt : m ≠ t := fun hh => hm hh.symm
        simp [List.filter_cons, hmt]
      rw [ih ht, h2]
      simp only [List.length_cons, List.length_nil]
      omega

/-- The ranked selection keeps exactly `min 3 (n - 1)` entries when the
target index is a real row index. -/
theorem pickTop_rank_length {n t : Nat} (hlt : t < n) (p c s e : List ℚ) :
    (pickTop t 3 (rankByScore (simPairs n t p c s e))).length =
      min 3 (n - 1) := by
  rw [pickTop_eq_take_filter, List.length_take]
  congr 1
  have hperm :=
    (rankByScore_perm (simPairs n t p c s e)).filter fun q => decide (q.1 ≠ t)
  rw [hperm.length_eq]
  unfold simPairs
  rw [List.filter_map, List.length_map]
  exact length_filter_ne_range hlt

/-! ## Claim theorems about the similarity ranking -/

/-- C4: the selection returned by the ranking pipeline is sorted by
similarity score descending, and two selected entries with equal scores keep
the relative order of their rows in the input population (their population
indices increase): Python's `sorted` is stable. -/
theorem rank_similar_sorted_stable :
    ∀ (target : String) (pop : List DriverStat),
      ((similarIdx true target pop).getD []).Pairwise fun a b =>
        b.2 < a.2 ∨ (a.2 = b.2 ∧ a.1 < b.1) := by
  intro target pop
  rcases similarIdx_shape target pop with h | h | ⟨pc, cc, sc, ec, -, -, -, -, h⟩
  · rw [h]; exact List.Pairwise.nil
  · rw [h]; exact List.Pairwise.nil
  · rw [h]
    simp only [Option.getD_some]
    exact (rankByScore_pairwise (simPairs_pairwise_fst _ _ _ _ _ _)).sublist
      (pickTop_sublist _ _ _)

/-- C9: every similarity score attached to a returned match lies in the
closed interval [0, 1]: the scaled feature rows are componentwise
non-negative, so the (zero-norm-guarded) cosine of two of them is. -/
theorem rank_similar_score_range :
    ∀ (target : String) (pop : List DriverStat),
      List.Forall (fun m => 0 ≤ m.2 ∧ m.2 ≤ 1)
        ((get_similar_drivers true target pop).getD []) := by
  intro target pop
  rw [List.forall_iff_forall_mem]
  intro m hm
  rcases similarIdx_shape target pop with h | h | ⟨pc, cc, sc, ec, -, -, -, -, h⟩
  · simp [get_similar_drivers, h] at hm
  · simp [get_similar_drivers, h] at hm
  · rw [get_similar_drivers, h] at hm
    simp only [Option.map_some', Option.getD_some, List.mem_map] at hm
    obtain ⟨p, hp, rfl⟩ := hm
    have hp2 : p ∈ simPairs pop.length (targetIdx target pop) (minmaxScale pc)
        (minmaxScale cc) (minmaxScale sc) (minmaxScale ec) :=
      (rankByScore_perm _).subset ((pickTop_sublist _ _ _).subset hp)
    simp only [simPairs, List.mem_map, List.mem_range] at hp2
    obtain ⟨i, -, rfl⟩ := hp2
    obtain ⟨w1, w2, w3, w4⟩ := vecAt_scaled_nonneg pc cc sc ec
      (targetIdx target pop)
    obtain ⟨z1, z2, z3, z4⟩ := vecAt_scaled_nonneg pc cc sc ec i
    exact cosSim_nonneg_le_one w1 w2 w3 w4 z1 z2 z3 z4

/-- C1 (amended): on a non-empty population, an absent target surname yields
the empty selection; a present target over feature columns with no leftover
`NaN` yields exactly `min 3 (population_size - 1)` matches; and the selection
never contains the target's own row index. -/
theorem rank_similar_cardinality :
    (∀ (target : String) (pop : List DriverStat), pop ≠ [] →
        ¬ target ∈ pop.map (fun d => d.surname) →
        get_similar_drivers true target pop = some []) ∧
    (∀ (target : String) (pop : List DriverStat),
        target ∈ pop.map (fun d => d.surname) → colsOk pop →
        (get_similar_drivers true target pop).isSome = true ∧
          ((get_similar_drivers true target pop).getD []).length =
            min 3 (pop.length - 1)) ∧
    (∀ (target : String) (pop : List DriverStat),
        List.Forall (fun p => p.1 ≠ targetIdx target pop)
          ((similarIdx true target pop).getD [])) := by
  refine ⟨?_, ?_, ?_⟩
  · intro target pop hne hmem
    unfold get_similar_drivers
    rw [similarIdx_absent hne hmem]
    rfl
  · intro target pop hmem hok
    obtain ⟨pc, hpc⟩ := Option.isSome_iff_exists.mp hok.1
    obtain ⟨cc, hcc⟩ := Option.isSome_iff_exists.mp hok.2.1
    obtain ⟨sc, hsc⟩ := Option.isSome_iff_exists.mp hok.2.2.1
    obtain ⟨ec, hec⟩ := Option.isSome_iff_exists.mp hok.2.2.2
    have hne : ¬ pop = [] := by
      intro h
      rw [h] at hmem
      cases hmem
    have hcon : (pop.map fun d => d.surname).contains target = true :=
      List.elem_iff.mpr hmem
    have hsim := similarIdx_of_ok hne hcon hpc hcc hsc hec
    unfold get_similar_drivers
    rw [hsim]
    refine ⟨rfl, ?_⟩
    simp only [Option.map_some', Option.getD_some, List.length_map]
    exact pickTop_rank_length (targetIdx_lt_length hmem) _ _ _ _
  · intro target pop
    rw [List.forall_iff_forall_mem]
    intro p hp
    rcases similarIdx_shape target pop with h | h | ⟨pc, cc, sc, ec, -, -, -, -, h⟩
    · rw [h] at hp; cases hp
    · rw [h] at hp; cases hp
    · rw [h] at hp
      simp only [Option.getD_some] at hp
      exact pickTop_fst_ne _ _ _ p hp

/-- C1 counterexample: `rank_similar` aborts instead of returning a sequence
on an empty population (no `surname` column: `KeyError`), and on a singleton
population whose feature attributes are all null (leftover `NaN` rejected by
the backend), where the claim demands `[]` and `min 3 0 = 0` matches
respectively. -/
theorem rank_similar_cardinality_counterexample :
    get_similar_drivers true "Alonso" [] = none ∧
    get_similar_drivers true "Alonso" [⟨"Alonso", none, none, none, none⟩] =
      none := by
  constructor
  · rfl
  · rfl

/-- Witness for C1 on the three-member complete population `popABC`. -/
theorem rank_similar_cardinality_witness :
    get_similar_drivers true "Zz" popABC = some [] ∧
    ((get_similar_drivers true "A" popABC).isSome = true ∧
      ((get_similar_drivers true "A" popABC).getD []).length =
        min 3 (popABC.length - 1)) :=
  ⟨rank_similar_cardinality.1 "Zz" popABC (by decide) (by decide),
    rank_similar_cardinality.2.1 "A" popABC (by decide)
      (by refine ⟨?_, ?_, ?_, ?_⟩ <;> decide)⟩

/-! ## The mean fill commutes with the affine feature transforms -/

theorem sum_map_affine (k s : ℚ) (v : List ℚ) :
    (v.map fun x => k + s * x).sum = v.length * k + s * v.sum := by
  induction v with
  | nil => simp
  | cons y ys ih =>
    simp only [List.map_cons, List.sum_cons, List.length_cons, ih]
    push_cast
    ring

theorem colMean_map_affine (k s : ℚ) (f : ℚ → ℚ) (hf : ∀ x, f x = k + s * x)
    (c : List (Option ℚ)) :
    colMean (c.map (Option.map f)) = (colMean c).map f := by
  have hfilter : (c.map (Option.map f)).filterMap id = (c.filterMap id).map f := by
    rw [List.filterMap_map, List.map_filterMap]
    rfl
  unfold colMean
  rw [hfilter]
  simp only [List.length_map]
  by_cases h : (c.filterMap id).length = 0
  · rw [if_pos h, if_pos h]
    rfl
  · rw [if_neg h, if_neg h]
    simp only [Option.map_some']
    congr 1
    have hsum : ((c.filterMap id).map f).sum =
        (c.filterMap id).length * k + s * (c.filterMap id).sum := by
      rw [List.map_congr_left fun x _ => hf x, sum_map_affine]
    rw [hsum, hf]
    have hlen : ((c.filterMap id).length : ℚ) ≠ 0 := by
      simpa using h
    field_simp
    ring

theorem fillna_map_affine (k s : ℚ) (f : ℚ → ℚ) (hf : ∀ x, f x = k + s * x)
    (c : List (Option ℚ)) :
    fillna (c.map (Option.map f)) = (fillna c).map (Option.map f) := by
  unfold fillna
  rw [colMean_map_affine k s f hf c, List.map_map, List.map_map]
  apply List.map_congr_left
  intro o ho
  cases o with
  | some x => rfl
  | none => rfl

theorem fillna_idem (c : List (Option ℚ)) : fillna (fillna c) = fillna c := by
  rcases hm : colMean c with _ | μ
  · have h1 : fillna c = c := by
      unfold fillna
      rw [hm, show (fun o => fillOpt o none) = id from funext fun o => by
        cases o <;> rfl, List.map_id]
    rw [h1]
    exact h1
  · have h2 : ∀ o ∈ fillna c, o.isSome = true := by
      intro o ho
      unfold fillna at ho
      rw [List.mem_map] at ho
      obtain ⟨o', -, rfl⟩ := ho
      cases o' with
      | some x => rfl
      | none => simp [fillOpt, hm]
    have h3 : ∀ o ∈ fillna c, fillOpt o (colMean (fillna c)) = o := by
      intro o ho
      rcases Option.isSome_iff_exists.mp (h2 o ho) with ⟨x, rfl⟩
      rfl
    calc fillna (fillna c)
        = (fillna c).map fun o => fillOpt o (colMean (fillna c)) := rfl
      _ = (fillna c).map id := List.map_congr_left h3
      _ = fillna c := List.map_id _

/-- Filling a source attribute with its mean over the members that have it
and then transforming affinely is the same column as transforming first and
filling with the transformed column's mean, as the code does. -/
theorem specFill_col (pop : List DriverStat) (g : DriverStat → Option ℚ)
    (f : ℚ → ℚ) (k s : ℚ) (hf : ∀ x, f x = k + s * x) :
    fillna ((pop.map fun d =>
        fillOpt (g d) (colMean (pop.map g))).map (Option.map f)) =
      fillna (pop.map fun d => (g d).map f) := by
  have h1 : (pop.map fun d => fillOpt (g d) (colMean (pop.map g))) =
      fillna (pop.map g) := by
    unfold fillna
    rw [List.map_map]
    rfl
  rw [h1, ← fillna_map_affine k s f hf (pop.map g), fillna_idem]
  congr 1
  rw [List.map_map]
  rfl

theorem scorePace_specFill (pop : List DriverStat) :
    fillna (scorePace (specFillPop pop)) = fillna (scorePace pop) := by
  have h := specFill_col pop (fun d => d.avg_finish) (fun x => 22 - x) 22 (-1)
    (fun x => by ring)
  calc fillna (scorePace (specFillPop pop))
      = fillna ((pop.map fun d =>
          fillOpt d.avg_finish (colMean (pop.map fun d => d.avg_finish))).map
            (Option.map fun x => 22 - x)) := by
        unfold scorePace specFillPop
        rw [List.map_map, List.map_map]
        rfl
    _ = fillna (pop.map fun d => d.avg_finish.map fun x => 22 - x) := h
    _ = fillna (scorePace pop) := rfl

theorem scoreConsistency_specFill (pop : List DriverStat) :
    fillna (scoreConsistency (specFillPop pop)) =
      fillna (scoreConsistency pop) := by
  have h := specFill_col pop (fun d => d.finish_std) (fun x => 15 - x) 15 (-1)
    (fun x => by ring)
  calc fillna (scoreConsistency (specFillPop pop))
      = fillna ((pop.map fun d =>
          fillOpt d.finish_std (colMean (pop.map fun d => d.finish_std))).map
            (Option.map fun x => 15 - x)) := by
        unfold scoreConsistency specFillPop
        rw [List.map_map, List.map_map]
        rfl
    _ = fillna (pop.map fun d => d.finish_std.map fun x => 15 - x) := h
    _ = fillna (scoreConsistency pop) := rfl

theorem scoreSkill_specFill (pop : List DriverStat) :
    fillna (scoreSkill (specFillPop pop)) = fillna (scoreSkill pop) := by
  have h := specFill_col pop (fun d => d.delta_vs_team) (fun x => x * (-1)) 0
    (-1) (fun x => by ring)
  calc fillna (scoreSkill (specFillPop pop))
      = fillna ((pop.map fun d =>
          fillOpt d.delta_vs_team
            (colMean (pop.map fun d => d.delta_vs_team))).map
            (Option.map fun x => x * (-1))) := by
        unfold scoreSkill specFillPop
        rw [List.map_map, List.map_map]
        rfl
    _ = fillna (pop.map fun d => d.delta_vs_team.map fun x => x * (-1)) := h
    _ = fillna (scoreSkill pop) := rfl

theorem scoreExp_specFill (pop : List DriverStat) :
    fillna (scoreExp (specFillPop pop)) = fillna (scoreExp pop) := by
  have h1 : scoreExp (specFillPop pop) = fillna (scoreExp pop) := by
    unfold scoreExp specFillPop fillna
    rw [List.map_map, List.map_map]
    rfl
  rw [h1, fillna_idem]

theorem findIdx_map_comp {α β : Type} (f : α → β) (p : β → Bool)
    (l : List α) : (l.map f).findIdx p = l.findIdx fun a => p (f a) := by
  induction l with
  | nil => rfl
  | cons x xs ih => simp [List.findIdx_cons, ih]

/-- The ranking pipeline cannot tell a population from its spec-level
mean-filled version: filling the raw attributes first gives the same filled
feature columns, the same target index and the same selection. -/
theorem similarIdx_specFill (target : String) (pop : List DriverStat) :
    similarIdx true target (specFillPop pop) = similarIdx true target pop := by
  by_cases h1 : pop = []
  · subst h1; rfl
  have h1' : ¬ specFillPop pop = [] := by
    intro hh
    exact h1 (List.map_eq_nil_iff.mp hh)
  have hsur : (specFillPop pop).map (fun d => d.surname) =
      pop.map fun d => d.surname := by
    unfold specFillPop
    rw [List.map_map]
    rfl
  have hidx : targetIdx target (specFillPop pop) = targetIdx target pop := by
    unfold targetIdx specFillPop
    rw [findIdx_map_comp]
  have hlen : (specFillPop pop).length = pop.length := List.length_map _ _
  unfold similarIdx
  rw [hsur, hidx, hlen, scorePace_specFill, scoreConsistency_specFill,
    scoreSkill_specFill, scoreExp_specFill, if_neg h1', if_neg h1]

theorem colMean_isSome {c : List (Option ℚ)} (h : ∃ o ∈ c, o.isSome = true) :
    (colMean c).isSome = true := by
  obtain ⟨o, ho, hos⟩ := h
  rcases Option.isSome_iff_exists.mp hos with ⟨x, rfl⟩
  have hx : x ∈ c.filterMap id := List.mem_filterMap.mpr ⟨some x, ho, rfl⟩
  have hne : c.filterMap id ≠ [] := by
    intro hh
    rw [hh] at hx
    cases hx
  have hlen : ¬ ((c.filterMap id).length = 0) := by
    rw [List.length_eq_zero]
    exact hne
  unfold colMean
  rw [if_neg hlen]
  rfl

theorem seqCol_isSome_of_all {c : List (Option ℚ)}
    (h : ∀ o ∈ c, o.isSome = true) : (seqCol c).isSome = true := by
  induction c with
  | nil => rfl
  | cons o rest ih =>
    rcases Option.isSome_iff_exists.mp (h o (List.mem_cons_self _ _)) with ⟨x, rfl⟩
    have hr := ih fun o' ho' => h o' (List.mem_cons_of_mem _ ho')
    rcases Option.isSome_iff_exists.mp hr with ⟨l, hl⟩
    simp [seqCol, hl]

theorem seqCol_fillna_isSome {c : List (Option ℚ)}
    (h : ∃ o ∈ c, o.isSome = true) : (seqCol (fillna c)).isSome = true := by
  apply seqCol_isSome_of_all
  intro o ho
  unfold fillna at ho
  rw [List.mem_map] at ho
  obtain ⟨o', -, rfl⟩ := ho
  cases o' with
  | some x => rfl
  | none => exact colMean_isSome h

/-- C3: the ranking pipeline behaves on a population with nulls exactly as on
the population whose missing attributes were replaced, before the transforms,
by the mean of that attribute over the members that have it (`specFillPop`);
and no error is raised for missing data as long as each attribute is present
for at least one member. -/
theorem rank_similar_mean_fill :
    (∀ (target : String) (pop : List DriverStat),
        similarIdx true target (specFillPop pop) =
          similarIdx true target pop) ∧
    (∀ (target : String) (pop : List DriverStat),
        (∃ d ∈ pop, d.avg_finish.isSome = true) →
        (∃ d ∈ pop, d.finish_std.isSome = true) →
        (∃ d ∈ pop, d.delta_vs_team.isSome = true) →
        (∃ d ∈ pop, d.races.isSome = true) →
        (get_similar_drivers true target pop).isSome = true) := by
  refine ⟨similarIdx_specFill, ?_⟩
  intro target pop h1 h2 h3 h4
  by_cases hpop : pop = []
  · subst hpop
    obtain ⟨d, hd, -⟩ := h1
    cases hd
  by_cases hmem : target ∈ pop.map fun d => d.surname
  · have hp : (seqCol (fillna (scorePace pop))).isSome = true := by
      apply seqCol_fillna_isSome
      obtain ⟨d, hd, hds⟩ := h1
      rcases Option.isSome_iff_exists.mp hds with ⟨x, hx⟩
      exact ⟨some (22 - x), List.mem_map.mpr ⟨d, hd, by rw [hx]; rfl⟩, rfl⟩
    have hc : (seqCol (fillna (scoreConsistency pop))).isSome = true := by
      apply seqCol_fillna_isSome
      obtain ⟨d, hd, hds⟩ := h2
      rcases Option.isSome_iff_exists.mp hds with ⟨x, hx⟩
      exact ⟨some (15 - x), List.mem_map.mpr ⟨d, hd, by rw [hx]; rfl⟩, rfl⟩
    have hs : (seqCol (fillna (scoreSkill pop))).isSome = true := by
      apply seqCol_fillna_isSome
      obtain ⟨d, hd, hds⟩ := h3
      rcases Option.isSome_iff_exists.mp hds with ⟨x, hx⟩
      exact ⟨some (x * (-1)), List.mem_map.mpr ⟨d, hd, by rw [hx]; rfl⟩, rfl⟩
    have he : (seqCol (fillna (scoreExp pop))).isSome = true := by
      apply seqCol_fillna_isSome
      obtain ⟨d, hd, hds⟩ := h4
      rcases Option.isSome_iff_exists.mp hds with ⟨x, hx⟩
      exact ⟨some x, List.mem_map.mpr ⟨d, hd, by rw [hx]⟩, rfl⟩
    obtain ⟨pc, hpc⟩ := Option.isSome_iff_exists.mp hp
    obtain ⟨cc, hcc⟩ := Option.isSome_iff_exists.mp hc
    obtain ⟨sc, hsc⟩ := Option.isSome_iff_exists.mp hs
    obtain ⟨ec, hec⟩ := Option.isSome_iff_exists.mp he
    unfold get_similar_drivers
    rw [similarIdx_of_ok hpop (List.elem_iff.mpr hmem) hpc hcc hsc hec]
    rfl
  · unfold get_similar_drivers
    rw [similarIdx_absent hpop hmem]
    rfl

/-- Witness for C3 on `popNullStd`, whose member B has a null `finish_std`. -/
theorem rank_similar_mean_fill_witness :
    similarIdx true "A" (specFillPop popNullStd) =
      similarIdx true "A" popNullStd ∧
    (get_similar_drivers true "A" popNullStd).isSome = true :=
  ⟨rank_similar_mean_fill.1 "A" popNullStd,
    rank_similar_mean_fill.2 "A" popNullStd (by decide) (by decide) (by decide)
      (by decide)⟩

/-- C5: a feature dimension with equal minimum and maximum is scaled to the
constant 0 without dividing by zero, the similarity score against a vector
collapsed to all-zero is 0 rather than an exception, and a singleton
population with complete attributes returns the empty match list without
error. -/
theorem rank_similar_degenerate :
    (∀ c : List ℚ, colMin c = colMax c → minmaxScale c = c.map fun _ => 0) ∧
    (∀ v : Vec4, cosSim ⟨0, 0, 0, 0⟩ v = 0 ∧ cosSim v ⟨0, 0, 0, 0⟩ = 0) ∧
    (∀ (target s : String) (a b c' d : ℚ),
        get_similar_drivers true target [⟨s, some a, some b, some c', some d⟩] =
          some []) := by
  refine ⟨?_, ?_, ?_⟩
  · intro c h
    simp only [minmaxScale]
    rw [if_pos (by rw [h]; ring : colMax c - colMin c = 0)]
    apply List.map_congr_left
    intro x hx
    have hl : colMin c ≤ x := colMin_le hx
    have hh : x ≤ colMax c := le_colMax hx
    have : x - colMin c = 0 := by
      rw [h] at hl
      linarith
    rw [this]
    simp
  · intro v
    have hz : dotQ ⟨0, 0, 0, 0⟩ v = 0 := by
      unfold dotQ
      ring
    have hz' : dotQ v ⟨0, 0, 0, 0⟩ = 0 := by
      unfold dotQ
      ring
    constructor
    · unfold cosSim
      rw [hz]
      simp
    · unfold cosSim
      rw [hz']
      simp
  · intro target s a b c' d
    by_cases hmem : target ∈ ([⟨s, some a, some b, some c', some d⟩] :
        List DriverStat).map fun dd => dd.surname
    · have hs : s = target := by
        simp only [List.map_cons, List.map_nil, List.mem_singleton] at hmem
        exact hmem.symm
      have h0 : targetIdx target [(⟨s, some a, some b, some c', some d⟩ :
          DriverStat)] = 0 := by
        unfold targetIdx
        simp [List.findIdx_cons, hs]
      unfold get_similar_drivers
      rw [similarIdx_of_ok (by simp) (List.elem_iff.mpr hmem) rfl rfl rfl rfl,
        h0]
      rw [show ([(⟨s, some a, some b, some c', some d⟩ : DriverStat)]).length
        = 1 from rfl]
      rw [show simPairs 1 0 (minmaxScale [22 - a]) (minmaxScale [15 - b])
          (minmaxScale [c' * (-1)]) (minmaxScale [d]) =
        [(0, cosSim
          (vecAt (minmaxScale [22 - a]) (minmaxScale [15 - b])
            (minmaxScale [c' * (-1)]) (minmaxScale [d]) 0)
          (vecAt (minmaxScale [22 - a]) (minmaxScale [15 - b])
            (minmaxScale [c' * (-1)]) (minmaxScale [d]) 0))] from by
        unfold simPairs
        rfl]
      rw [show ∀ x : Nat × ℝ, rankByScore [x] = [x] from fun x =>
        List.mergeSort_singleton x]
      simp [pickTop]
    · unfold get_similar_drivers
      rw [similarIdx_absent (by simp) hmem]
      rfl

/-- C5 counterexample: a singleton population whose attributes are all null —
a degenerate input by the spec's own definition — aborts with an uncaught
error (leftover `NaN` rejected by the similarity backend) instead of being
handled by the fallback rules. -/
theorem rank_similar_degenerate_counterexample :
    get_similar_drivers true "Senna" [⟨"Senna", none, none, none, none⟩] =
      none := by
  rfl

/-- Witness for C5: a constant column scales to zero, the zero vector has
similarity 0 against a concrete vector, and a complete singleton population
returns no matches and no error. -/
theorem rank_similar_degenerate_witness :
    minmaxScale [(3 : ℚ), 3] = List.map (fun _ => 0) [(3 : ℚ), 3] ∧
    cosSim ⟨0, 0, 0, 0⟩ ⟨1, 2, 3, 4⟩ = 0 ∧
    get_similar_drivers true "Senna" [⟨"Senna", some 5, some 2, some 1, some 161⟩] =
      some [] :=
  ⟨rank_similar_degenerate.1 [(3 : ℚ), 3] (by decide),
    (rank_similar_degenerate.2.1 ⟨1, 2, 3, 4⟩).1,
    rank_similar_degenerate.2.2 "Senna" "Senna" 5 2 1 161⟩

end F1
